import Mathlib

/-!
Verification of the scheduling/aggregation core of `dwm-status-bar-rs`
(`src/main.rs`), shallowly embedded in Lean 4.

The embedding covers:
* `MODULE_ORDER` (src/main.rs:35-37) — the fixed display/priority order;
* `Update` (src/main.rs:48-52) — the message type sent by monitor loops;
* the aggregator loop body (src/main.rs:112-118) — `results.insert(id, value)`
  followed by rendering, modelled by `applyUpdate` / `applyUpdates`;
* `assemble_bar` (src/main.rs:199-205) — the renderer;
* the task spawned by `spawn_monitor` (src/main.rs:146-176) — initial run,
  fail-fast disable, steady-state loop with timer/trigger select, modelled by
  `monitorRun` / `steadyRun` over an explicit list of wake-up events;
* the debounced-event handler of `trigger_listener` (src/main.rs:183-193) —
  filename-to-module-id filtering, modelled by `processEvent`.
-/

namespace DwmBar

/-- `MODULE_ORDER` from src/main.rs:35-37: the fixed, ordered list of monitor
ids that determines display order and the set of recognized trigger names. -/
def MODULE_ORDER : List String :=
  ["vpn", "notification", "cpu_load", "ram", "disk", "cpu_temp", "gpu_temp",
   "battery", "volume", "bluetooth", "net", "datetime"]

/-- `Update` from src/main.rs:48-52: a message `{id, value}` sent by a monitor
loop to the aggregator. -/
structure Update where
  id : String
  value : String
deriving Repr, DecidableEq

/-- The aggregator's `ResultsMap` (`HashMap<&'static str, String>`,
src/main.rs:73): a partial map from monitor id to the most recently received
value, modelled as a function into `Option`. -/
abbrev ResultsMap : Type := String → Option String

/-- The empty results map (no monitor has reported yet). -/
def emptyResults : ResultsMap := fun _ => none

/-- One step of the aggregator loop body (src/main.rs:114):
`results_guard.insert(update.id, update.value)` — unconditional insert,
overwriting any previous value for the same id, even when the value is `""`. -/
def applyUpdate (m : ResultsMap) (u : Update) : ResultsMap :=
  fun k => if k = u.id then some u.value else m k

/-- The aggregator processing a sequence of `Update` messages in arrival order
(the `while let Some(update) = update_rx.recv()` loop, src/main.rs:112-118). -/
def applyUpdates (m : ResultsMap) (us : List Update) : ResultsMap :=
  us.foldl applyUpdate m

/-- The per-id fragment selection of `assemble_bar` (src/main.rs:202):
`results.get(id).cloned().filter(|s| !s.is_empty())`. -/
def keepFragment (v : Option String) : Option String :=
  v.filter (fun s => !s.isEmpty)

/-- The `parts` vector of `assemble_bar` (src/main.rs:200-203), generalized
over the iteration order so that lemmas can induct on it; the source always
uses `MODULE_ORDER`. -/
def barPartsWith (order : List String) (results : ResultsMap) : List String :=
  order.filterMap (fun id => keepFragment (results id))

/-- `assemble_bar` generalized over the order list (the source fixes it to
`MODULE_ORDER`): `format!(" {} ", parts.join(" | "))` (src/main.rs:204). -/
def assembleBarWith (order : List String) (results : ResultsMap) : String :=
  " " ++ String.intercalate " | " (barPartsWith order results) ++ " "

/-- `assemble_bar` from src/main.rs:199-205. -/
def assemble_bar (results : ResultsMap) : String :=
  assembleBarWith MODULE_ORDER results

/-- The latest value carried by an update with the given id: the value of the
last element of the subsequence of updates addressed to `id`. -/
def latestValue (us : List Update) (id : String) : Option String :=
  ((us.filter (fun u => u.id == id)).getLast?).map Update.value

-- ### Helper lemmas about the aggregator state

theorem getLast?_cons {α : Type} (a : α) (l : List α) :
    (a :: l).getLast? = match l.getLast? with
      | some x => some x
      | none => some a := by
  cases l with
  | nil => simp
  | cons b t =>
    rw [List.getLast?_cons_cons]
    have h : (b :: t).getLast? ≠ none := by
      simp [List.getLast?_eq_none_iff]
    cases hg : (b :: t).getLast? with
    | none => exact absurd hg h
    | some x => rfl

theorem applyUpdates_apply (us : List Update) (m : ResultsMap) (id : String) :
    applyUpdates m us id = match latestValue us id with
      | some v => some v
      | none => m id := by
  induction us generalizing m with
  | nil => simp [applyUpdates, latestValue]
  | cons u us ih =>
    show applyUpdates (applyUpdate m u) us id = _
    rw [ih]
    unfold latestValue
    cases hb : (u.id == id) with
    | true =>
      have hid : id = u.id := (eq_of_beq hb).symm
      rw [List.filter_cons_of_pos (by simpa using hb), getLast?_cons]
      cases hg : ((us.filter (fun u => u.id == id)).getLast?) with
      | some x => simp
      | none => simp [applyUpdate, hid]
    | false =>
      rw [List.filter_cons_of_neg (by simpa using hb)]
      have hne : id ≠ u.id := fun h => by simp [h] at hb
      cases hg : ((us.filter (fun u => u.id == id)).getLast?) with
      | some x => simp
      | none => simp [applyUpdate, hne]

theorem applyUpdates_empty_apply (us : List Update) (id : String) :
    applyUpdates emptyResults us id = latestValue us id := by
  rw [applyUpdates_apply]
  cases latestValue us id <;> simp [emptyResults]

theorem latestValue_eq_of_filter_eq (us1 us2 : List Update)
    (h : ∀ id : String, us1.filter (fun u => u.id == id)
                      = us2.filter (fun u => u.id == id)) :
    ∀ id : String, latestValue us1 id = latestValue us2 id := by
  intro id
  unfold latestValue
  rw [h id]

theorem keepFragment_none : keepFragment none = none := rfl

theorem barPartsWith_congr (order : List String) (m1 m2 : ResultsMap)
    (h : ∀ id : String, keepFragment (m1 id) = keepFragment (m2 id)) :
    barPartsWith order m1 = barPartsWith order m2 := by
  simp only [barPartsWith]
  induction order with
  | nil => rfl
  | cons a t ih => rw [List.filterMap_cons, List.filterMap_cons, h a, ih]

theorem barPartsWith_of_none (order : List String) (m : ResultsMap)
    (id : String) (h : m id = none) :
    barPartsWith order m
      = barPartsWith (order.filter (fun x => !(x == id))) m := by
  simp only [barPartsWith]
  induction order with
  | nil => rfl
  | cons a t ih =>
    rw [List.filter_cons]
    by_cases ha : a = id
    · subst ha
      rw [if_neg (by simp), List.filterMap_cons, h, keepFragment_none]
      exact ih
    · rw [if_pos (by simp [ha]), List.filterMap_cons, List.filterMap_cons, ih]

theorem barPartsWith_all_hidden (order : List String) (m : ResultsMap)
    (h : ∀ id : String, keepFragment (m id) = none) :
    barPartsWith order m = [] := by
  simp only [barPartsWith]
  induction order with
  | nil => rfl
  | cons a t ih =>
    rw [List.filterMap_cons, h a]
    exact ih

-- ### The monitor task spawned by `spawn_monitor` (src/main.rs:146-176)

/-- Outcome of one producer invocation (`Result<String>` in the source):
either a text fragment or a failure reason. -/
inductive RunResult where
  | ok (value : String)
  | err (reason : String)
deriving Repr, DecidableEq

/-- One wake-up of the steady-state `tokio::select!` (src/main.rs:160-166):
either the interval timer elapsing or a `TriggerEvent` carrying a monitor id
received on the broadcast subscription. -/
inductive Wake where
  | tick
  | trigger (tid : String)
deriving Repr, DecidableEq

/-- The steady-state loop of the spawned monitor task (src/main.rs:159-175),
entered only after a successful initial run.  `producer n` is the outcome of
the (n+1)-th producer invocation (invocations are numbered from 0; the steady
loop starts at index 1, index 0 being the initial run).  The loop consumes an
explicit list of wake-up events; on a timer tick, or a trigger carrying its
own id, it invokes the producer: a success sends an `Update`, a failure only
logs and continues.  A trigger carrying a different id is skipped with
`continue`, invoking nothing.  Returns the list of `Update` messages sent, in
order, together with the invocation index reached (total number of producer
invocations performed so far). -/
def steadyRun (id : String) (producer : Nat → RunResult) :
    List Wake → Nat → List Update × Nat
  | [], n => ([], n)
  | Wake.tick :: ws, n =>
      let r := steadyRun id producer ws (n + 1)
      match producer n with
      | RunResult.ok v => (⟨id, v⟩ :: r.1, r.2)
      | RunResult.err _ => r
  | Wake.trigger tid :: ws, n =>
      if tid = id then
        let r := steadyRun id producer ws (n + 1)
        match producer n with
        | RunResult.ok v => (⟨id, v⟩ :: r.1, r.2)
        | RunResult.err _ => r
      else
        steadyRun id producer ws n

/-- The whole task spawned by `spawn_monitor` (src/main.rs:146-176): run the
producer once (the initial run, invocation 0); on failure log a warning and
return — the steady loop is never entered, no `Update` is ever sent and the
producer is never invoked again (final invocation count stays 1) no matter
what wake-ups would have arrived; on success send the `Update` and enter the
steady-state loop at invocation index 1. -/
def monitorRun (id : String) (producer : Nat → RunResult)
    (wakes : List Wake) : List Update × Nat :=
  match producer 0 with
  | RunResult.err _ => ([], 1)
  | RunResult.ok v =>
      let r := steadyRun id producer wakes 1
      (⟨id, v⟩ :: r.1, r.2)

-- ### The debounced-event handler of `trigger_listener` (src/main.rs:183-193)

/-- Handling of one debounced filesystem event (src/main.rs:186-189): the
argument is `event.path.file_name().and_then(|s| s.to_str())`; if the base
filename equals some entry of `MODULE_ORDER`, that id is sent on the trigger
bus (`find` returns the matching entry), otherwise nothing is published. -/
def processEvent (fileName : Option String) : Option String :=
  fileName.bind (fun s => MODULE_ORDER.find? (fun m => m == s))

/-- The `for event in events` loop of the debouncer callback
(src/main.rs:185-191): the ids published for a batch of debounced events. -/
def triggerBatch (events : List (Option String)) : List String :=
  events.filterMap processEvent

theorem find?_beq_eq (l : List String) (s : String) :
    l.find? (fun m => m == s) = if s ∈ l then some s else none := by
  induction l with
  | nil => simp
  | cons a t ih =>
    cases hb : (a == s) with
    | true =>
      have : a = s := eq_of_beq hb
      subst this
      simp [List.find?_cons, hb]
    | false =>
      have hne : s ≠ a := fun h => by simp [h] at hb
      rw [List.find?_cons, hb, ih]
      by_cases hm : s ∈ t
      · simp [hm]
      · have : s ∉ a :: t := by
          intro hc
          rcases List.mem_cons.mp hc with h1 | h2
          · exact hne h1
          · exact hm h2
        simp [hm, this]

-- ### Further renderer lemmas

theorem isEmpty_empty_string : "".isEmpty = true := rfl

theorem barPartsWith_filter_map (order : List String) (results : ResultsMap) :
    barPartsWith order results
      = (order.filter (fun id => !((results id).getD "").isEmpty)).map
          (fun id => (results id).getD "") := by
  simp only [barPartsWith, keepFragment]
  induction order with
  | nil => rfl
  | cons a t ih =>
    rw [List.filterMap_cons, List.filter_cons]
    cases hr : results a with
    | none => simpa [hr, isEmpty_empty_string] using ih
    | some s =>
      cases hs : s.isEmpty with
      | true => simpa [Option.filter, hr, hs] using ih
      | false => simpa [Option.filter, hr, hs] using ih

-- ### Concrete scenario state (spec §8, item 7)

/-- Results map after updates `{ram, "ram: 40%"}` and `{datetime, "Mon 10:00:00"}`. -/
def scenarioMap1 : ResultsMap :=
  applyUpdates emptyResults [⟨"ram", "ram: 40%"⟩, ⟨"datetime", "Mon 10:00:00"⟩]

/-- `scenarioMap1` after the update `{vpn, ""}` (vpn reported but hidden). -/
def scenarioMap2 : ResultsMap := applyUpdate scenarioMap1 ⟨"vpn", ""⟩

/-- `scenarioMap2` after the update `{vpn, "VPN"}`. -/
def scenarioMap3 : ResultsMap := applyUpdate scenarioMap2 ⟨"vpn", "VPN"⟩

-- ### Claim theorems

/-- Claim C1: the rendered bar for any sequence of updates processed by the
aggregator equals the join of the latest value per monitor id, filtered to
non-empty values and ordered by `MODULE_ORDER`; consequently two update
sequences whose per-id subsequences coincide (permutations of each other that
preserve the relative order of updates with the same id) render identically —
arrival order across distinct ids does not matter, last write wins per id. -/
theorem C1_render_is_latest_join_order_independent :
    (∀ us : List Update,
        assemble_bar (applyUpdates emptyResults us)
          = " " ++ String.intercalate " | "
              (MODULE_ORDER.filterMap
                (fun id => (latestValue us id).filter (fun s => !s.isEmpty))) ++ " ")
    ∧ ∀ us1 us2 : List Update,
        (∀ id : String, us1.filter (fun u => u.id == id)
                      = us2.filter (fun u => u.id == id)) →
        assemble_bar (applyUpdates emptyResults us1)
          = assemble_bar (applyUpdates emptyResults us2) := by
  constructor
  · intro us
    have hm : applyUpdates emptyResults us = fun id => latestValue us id :=
      funext (fun id => applyUpdates_empty_apply us id)
    simp only [assemble_bar, assembleBarWith, barPartsWith, keepFragment, hm]
  · intro us1 us2 h
    have hm : applyUpdates emptyResults us1 = applyUpdates emptyResults us2 := by
      funext id
      rw [applyUpdates_empty_apply, applyUpdates_empty_apply]
      exact latestValue_eq_of_filter_eq us1 us2 h id
    rw [hm]

/-- Witness for C1: two concrete update sequences that permute updates across
distinct ids while preserving per-id order render the same bar. -/
theorem C1_witness :
    assemble_bar (applyUpdates emptyResults
        [⟨"ram", "r1"⟩, ⟨"vpn", "v1"⟩, ⟨"ram", "r2"⟩])
      = assemble_bar (applyUpdates emptyResults
        [⟨"vpn", "v1"⟩, ⟨"ram", "r1"⟩, ⟨"ram", "r2"⟩]) :=
  C1_render_is_latest_join_order_independent.2
    [⟨"ram", "r1"⟩, ⟨"vpn", "v1"⟩, ⟨"ram", "r2"⟩]
    [⟨"vpn", "v1"⟩, ⟨"ram", "r1"⟩, ⟨"ram", "r2"⟩]
    (by
      intro id
      by_cases h1 : id = "ram"
      · subst h1; decide
      · by_cases h2 : id = "vpn"
        · subst h2; decide
        · have hr : (("ram" : String) == id) = false :=
            beq_eq_false_iff_ne.mpr (fun h => h1 h.symm)
          have hv : (("vpn" : String) == id) = false :=
            beq_eq_false_iff_ne.mpr (fun h => h2 h.symm)
          simp [List.filter_cons, hr, hv])

/-- Claim C2: the rendered output is exactly one leading space, the kept
fragments joined by " | ", then one trailing space, where a fragment is kept
iff its value is present and non-empty at its id, ids taken in `MODULE_ORDER`;
and the concrete scenario with order ["vpn","ram","datetime"]: after
`{ram, "ram: 40%"}` and `{datetime, "Mon 10:00:00"}` the render is
" ram: 40% | Mon 10:00:00 ", unchanged after `{vpn, ""}`, and
" VPN | ram: 40% | Mon 10:00:00 " after `{vpn, "VPN"}` (the full
`MODULE_ORDER` renders agree since no other id has reported). -/
theorem C2_format_and_concrete_scenario :
    (∀ results : ResultsMap,
        assemble_bar results
          = " " ++ String.intercalate " | "
              ((MODULE_ORDER.filter (fun id => !((results id).getD "").isEmpty)).map
                (fun id => (results id).getD "")) ++ " ")
    ∧ assembleBarWith ["vpn", "ram", "datetime"] scenarioMap1
        = " ram: 40% | Mon 10:00:00 "
    ∧ assemble_bar scenarioMap1 = " ram: 40% | Mon 10:00:00 "
    ∧ assembleBarWith ["vpn", "ram", "datetime"] scenarioMap2
        = " ram: 40% | Mon 10:00:00 "
    ∧ assemble_bar scenarioMap2 = " ram: 40% | Mon 10:00:00 "
    ∧ assembleBarWith ["vpn", "ram", "datetime"] scenarioMap3
        = " VPN | ram: 40% | Mon 10:00:00 "
    ∧ assemble_bar scenarioMap3 = " VPN | ram: 40% | Mon 10:00:00 " := by
  refine ⟨fun results => ?_, by decide, by decide, by decide, by decide,
    by decide, by decide⟩
  rw [assemble_bar, assembleBarWith, barPartsWith_filter_map]

/-- Claim C3: a monitor whose initial producer invocation fails terminates
permanently: the producer is never invoked again (the invocation count stays
at 1 whatever wake-ups — timer ticks or matching triggers — would follow), no
`Update` for it is ever sent; hence, the aggregator never maps its id (its id
is never a key of the results map built from the other monitors' updates) and
the rendered bar equals the bar rendered with that id removed from the
order — the monitor never appears in any rendered string. -/
theorem C3_initial_failure_disables_permanently :
    ∀ (id : String) (producer : Nat → RunResult) (wakes : List Wake)
      (e : String),
      producer 0 = RunResult.err e →
      monitorRun id producer wakes = ([], 1)
      ∧ ∀ us : List Update, (∀ u ∈ us, u.id ≠ id) →
          applyUpdates emptyResults us id = none
          ∧ assemble_bar (applyUpdates emptyResults us)
              = assembleBarWith (MODULE_ORDER.filter (fun x => !(x == id)))
                  (applyUpdates emptyResults us) := by
  intro id producer wakes e h
  constructor
  · unfold monitorRun
    rw [h]
  · intro us hus
    have hn : applyUpdates emptyResults us id = none := by
      rw [applyUpdates_empty_apply]
      unfold latestValue
      have hf : us.filter (fun u => u.id == id) = [] := by
        apply List.filter_eq_nil_iff.mpr
        intro u hu
        simpa using hus u hu
      rw [hf]
      rfl
    refine ⟨hn, ?_⟩
    rw [assemble_bar, assembleBarWith, assembleBarWith,
      barPartsWith_of_none _ _ _ hn]

/-- Witness for C3: a producer failing on its initial run sends nothing and is
invoked exactly once even though a matching trigger and a tick arrive later;
an id for which no update was sent is absent from the results map. -/
theorem C3_witness :
    monitorRun "ram" (fun _ => RunResult.err "boom")
        [Wake.trigger "ram", Wake.tick] = ([], 1)
    ∧ applyUpdates emptyResults [⟨"vpn", "VPN"⟩] "ram" = none := by
  have h := C3_initial_failure_disables_permanently "ram"
    (fun _ => RunResult.err "boom") [Wake.trigger "ram", Wake.tick] "boom" rfl
  exact ⟨h.1, (h.2 [⟨"vpn", "VPN"⟩] (by decide)).1⟩

/-- Claim C4: after a successful initial run, a later failing invocation does
not disable the monitor: the loop behaves exactly as the loop continuing at
the next wake-up with the next invocation index, the failed invocation sends
no `Update`, and for every results map the aggregator state and the rendered
bar are unchanged (the last successfully published value stays displayed). -/
theorem C4_transient_failure_keeps_state :
    ∀ (id : String) (producer : Nat → RunResult) (n : Nat) (e : String)
      (ws : List Wake),
      producer n = RunResult.err e →
      steadyRun id producer (Wake.tick :: ws) n = steadyRun id producer ws (n + 1)
      ∧ (steadyRun id producer [Wake.tick] n).1 = []
      ∧ ∀ m : ResultsMap,
          applyUpdates m (steadyRun id producer [Wake.tick] n).1 = m
          ∧ assemble_bar (applyUpdates m (steadyRun id producer [Wake.tick] n).1)
              = assemble_bar m := by
  intro id producer n e ws h
  have h2 : (steadyRun id producer [Wake.tick] n).1 = [] := by
    simp [steadyRun, h]
  refine ⟨by simp [steadyRun, h], h2, fun m => ?_⟩
  rw [h2]
  exact ⟨rfl, rfl⟩

/-- Witness for C4: a steady-state invocation that fails at index 1 sends no
update and the loop carries on at index 2. -/
theorem C4_witness :
    steadyRun "ram" (fun _ => RunResult.err "boom") [Wake.tick, Wake.tick] 1
      = steadyRun "ram" (fun _ => RunResult.err "boom") [Wake.tick] 2
    ∧ (steadyRun "ram" (fun _ => RunResult.err "boom") [Wake.tick] 1).1 = [] :=
  ⟨(C4_transient_failure_keeps_state "ram" (fun _ => RunResult.err "boom") 1
      "boom" [Wake.tick] rfl).1,
   (C4_transient_failure_keeps_state "ram" (fun _ => RunResult.err "boom") 1
      "boom" [Wake.tick] rfl).2.1⟩

/-- Claim C5: an `Update` with empty value still sets the id's entry (the id
counts as having reported: the stored value is `some ""`, not `none`), and the
renderer treats an empty stored value and an absent key identically: the bar
rendered with `m[id] = ""` equals the bar rendered with `id` absent. -/
theorem C5_empty_update_reports_and_hides :
    ∀ (m : ResultsMap) (id : String),
      applyUpdate m ⟨id, ""⟩ id = some ""
      ∧ assemble_bar (applyUpdate m ⟨id, ""⟩)
          = assemble_bar (fun k => if k = id then none else m k) := by
  intro m id
  refine ⟨by simp [applyUpdate], ?_⟩
  have h : ∀ k : String,
      keepFragment (applyUpdate m ⟨id, ""⟩ k)
        = keepFragment ((fun k => if k = id then none else m k) k) := by
    intro k
    by_cases hk : k = id <;>
      simp [applyUpdate, hk, keepFragment, Option.filter, isEmpty_empty_string]
  rw [assemble_bar, assemble_bar, assembleBarWith, assembleBarWith,
    barPartsWith_congr _ _ _ h]

/-- Claim C6: for a debounced event whose base filename is `name`, a trigger
is published iff `name` is one of the `MODULE_ORDER` ids, and the published
id is `name` itself; any other filename publishes nothing (and a path without
a representable filename publishes nothing). -/
theorem C6_trigger_filename_filter :
    ∀ name : String,
      processEvent (some name)
          = (if name ∈ MODULE_ORDER then some name else none)
      ∧ processEvent none = none := by
  intro name
  refine ⟨?_, rfl⟩
  show MODULE_ORDER.find? (fun m => m == name) = _
  exact find?_beq_eq MODULE_ORDER name

/-- Claim C7: in the steady-state loop, a trigger event carrying a different
monitor id is discarded: the loop behaves exactly as if the event had not
occurred — the producer is not invoked (the invocation index is unchanged),
no `Update` is sent, and the loop resumes waiting on the remaining wake-ups. -/
theorem C7_foreign_trigger_discarded :
    ∀ (id tid : String) (producer : Nat → RunResult) (ws : List Wake) (n : Nat),
      tid ≠ id →
      steadyRun id producer (Wake.trigger tid :: ws) n
        = steadyRun id producer ws n := by
  intro id tid producer ws n h
  simp [steadyRun, h]

/-- Witness for C7: a trigger for "vpn" received by the "ram" loop produces no
update and leaves the invocation index at 5. -/
theorem C7_witness :
    steadyRun "ram" (fun _ => RunResult.ok "x") [Wake.trigger "vpn"] 5
      = ([], 5) := by
  rw [C7_foreign_trigger_discarded "ram" "vpn" (fun _ => RunResult.ok "x")
    [] 5 (by decide)]
  rfl

/-- Claim C8: re-delivering an identical `Update` is idempotent: the second
delivery leaves the results map unchanged and the rendered string is the one
produced after the first delivery. -/
theorem C8_idempotent_redelivery :
    ∀ (m : ResultsMap) (u : Update),
      applyUpdate (applyUpdate m u) u = applyUpdate m u
      ∧ assemble_bar (applyUpdate (applyUpdate m u) u)
          = assemble_bar (applyUpdate m u) := by
  intro m u
  have h : applyUpdate (applyUpdate m u) u = applyUpdate m u := by
    funext k
    by_cases hk : k = u.id <;> simp [applyUpdate, hk]
  exact ⟨h, by rw [h]⟩

/-- Claim C10: with no non-empty value reported (in particular the empty
results map), the bar renders as exactly two spaces, and every rendered
string is of the form a single leading space, a middle, and a single trailing
space. -/
theorem C10_render_when_nothing_reported :
    assemble_bar emptyResults = "  "
    ∧ (∀ m : ResultsMap,
        (∀ id : String, m id = none ∨ m id = some "") → assemble_bar m = "  ")
    ∧ ∀ m : ResultsMap, ∃ mid : String, assemble_bar m = " " ++ mid ++ " " := by
  refine ⟨by decide, fun m h => ?_,
    fun m => ⟨String.intercalate " | " (barPartsWith MODULE_ORDER m), rfl⟩⟩
  have hk : ∀ id : String, keepFragment (m id) = none := by
    intro id
    rcases h id with h1 | h1 <;>
      simp [h1, keepFragment, Option.filter, isEmpty_empty_string]
  rw [assemble_bar, assembleBarWith, barPartsWith_all_hidden _ _ hk]
  rfl

/-- Witness for C10: a map where one monitor reported the empty value and no
other monitor reported renders as two spaces. -/
theorem C10_witness :
    assemble_bar (fun k => if k = "vpn" then some "" else none) = "  " :=
  C10_render_when_nothing_reported.2.1 _ (by
    intro id
    by_cases h : id = "vpn" <;> simp [h])

end DwmBar
